import Mathlib

/-
Verification development for the reminder-scheduling core of the
simple_anni_day repository (src/services/DateService.js, together with the
Anniversary data model).  The two functions under study are
getNextReminderDate (the spec calls it nextDueDate) and shouldNotify
(the spec calls it shouldNotifyNow), plus the helper
getCycleIntervalMonths.

Modelling conventions, chosen to mirror the JavaScript source:
- A JS Date that has been passed through startOfDay is modelled as a
  CalDate: a (year, month, day) triple carrying the validity facts that
  every Date produced by parseISO of a calendar string or by the
  date-fns month arithmetic enjoys.
- date-fns addMonths advances the month index and clamps the
  day-of-month to the last day of the target month; addMonthsD does the
  same.
- date-fns isBefore compares timestamps; on valid day-truncated dates
  this is exactly lexicographic order on (year, month, day), which is
  how beforeD is defined.  differenceInDays on day-truncated dates is
  the difference of linear day numbers; toDayNumber computes the
  standard civil-from-days number (days since 1970-01-01).
- JS null/undefined is modelled by Option.none.  An unparseable date
  string is turned by parseISO into an Invalid Date, which is truthy
  but has NaN time; anniversary.date is therefore a DateInput with
  three cases: missing (falsy), invalid (truthy Invalid Date), valid.
  A function result that may be null, an Invalid Date, or a real date
  has type Option (Option CalDate).
- JS "x || d" on numbers (NaN, 0 and absence are falsy) is jsOrNum.
- timings array entries may be non-numeric in JS; an entry is modelled
  as Option Int with none standing for a non-number value.  Array
  includes uses SameValueZero, so a non-number entry never equals a
  numeric daysUntil, and a NaN daysUntil (invalid date) never equals
  any entry that came from JSON, which cannot hold NaN.
-/

namespace AnniDay

/-- Gregorian leap-year test, as in JS date arithmetic. -/
def isLeapYear (y : Int) : Prop :=
  y % 4 = 0 ∧ (y % 100 ≠ 0 ∨ y % 400 = 0)

instance (y : Int) : Decidable (isLeapYear y) := by
  unfold isLeapYear; infer_instance

/-- Number of days in a month of the proleptic Gregorian calendar used by
JS Date and date-fns. -/
def daysInMonth (y m : Int) : Int :=
  if m = 2 then (if isLeapYear y then 29 else 28)
  else if m = 4 ∨ m = 6 ∨ m = 9 ∨ m = 11 then 30
  else 31

theorem daysInMonth_pos (y m : Int) : 1 ≤ daysInMonth y m := by
  unfold daysInMonth
  split
  · split <;> omega
  · split <;> omega

/-- A day-truncated calendar date (the result of startOfDay on a valid
Date), with the validity facts every such Date satisfies. -/
structure CalDate where
  year : Int
  month : Int
  day : Int
  month_ge : 1 ≤ month
  month_le : month ≤ 12
  day_ge : 1 ≤ day
  day_le : day ≤ daysInMonth year month

/-- Linear month index: months since year 0, month 1. -/
def monthIdx (d : CalDate) : Int := 12 * d.year + (d.month - 1)

/-- Lexicographic order on raw (year, month, day) triples. -/
def lexLt (y1 m1 d1 y2 m2 d2 : Int) : Prop :=
  y1 < y2 ∨ (y1 = y2 ∧ (m1 < m2 ∨ (m1 = m2 ∧ d1 < d2)))

instance (y1 m1 d1 y2 m2 d2 : Int) : Decidable (lexLt y1 m1 d1 y2 m2 d2) := by
  unfold lexLt; infer_instance

/-- date-fns isBefore on day-truncated dates: timestamp comparison, which
on valid calendar dates is lexicographic (year, month, day) order. -/
def beforeD (a b : CalDate) : Bool :=
  decide (lexLt a.year a.month a.day b.year b.month b.day)

/-- date-fns addMonths on a day-truncated date: advance the month index by
k and clamp the day-of-month to the last day of the target month. -/
def addMonthsD (d : CalDate) (k : Int) : CalDate where
  year := (monthIdx d + k) / 12
  month := (monthIdx d + k) % 12 + 1
  day := min d.day
    (daysInMonth ((monthIdx d + k) / 12) ((monthIdx d + k) % 12 + 1))
  month_ge := by omega
  month_le := by omega
  day_ge := le_min d.day_ge (daysInMonth_pos _ _)
  day_le := min_le_right _ _

/-- Proof-layer helper: the day number of the start of the shifted
(March-first) year y, relative to the same epoch offset as civilDays. -/
def yearDays (y : Int) : Int :=
  (y / 400) * 146097 + (y - (y / 400) * 400) * 365
    + (y - (y / 400) * 400) / 4 - (y - (y / 400) * 400) / 100

/-- Proof-layer helper: the day-of-shifted-year of month m, day d. -/
def doyOf (m d : Int) : Int := (153 * ((m + 9) % 12) + 2) / 5 + d - 1

/-- Days since 1970-01-01 of a raw (year, month, day) triple, by the
standard civil-calendar formula.  On valid dates this is the JS
timestamp divided by the milliseconds in a day, so differenceInDays of
two day-truncated dates is the difference of their day numbers. -/
def civilDays (y m d : Int) : Int :=
  let y' := if m ≤ 2 then y - 1 else y
  let era := y' / 400
  let yoe := y' - era * 400
  let mp := (m + 9) % 12
  let doy := (153 * mp + 2) / 5 + d - 1
  let doe := yoe * 365 + yoe / 4 - yoe / 100 + doy
  era * 146097 + doe - 719468

/-- Day number of a CalDate. -/
def toDayNumber (dt : CalDate) : Int := civilDays dt.year dt.month dt.day

/-- k-fold application of addMonthsD, unrolled the same way the while
loop in getNextReminderDate unrolls. -/
def iterAdd (I : Int) : Nat → CalDate → CalDate
  | 0, s => s
  | Nat.succ k, s => iterAdd I k (addMonthsD s I)

theorem monthIdx_addMonthsD (d : CalDate) (k : Int) :
    monthIdx (addMonthsD d k) = monthIdx d + k := by
  simp only [addMonthsD, monthIdx]
  omega

theorem monthIdx_le_of_beforeD (a b : CalDate) (h : beforeD a b = true) :
    monthIdx a ≤ monthIdx b := by
  have ha1 := a.month_ge
  have ha2 := a.month_le
  have hb1 := b.month_ge
  have hb2 := b.month_le
  simp only [beforeD, decide_eq_true_eq, lexLt] at h
  simp only [monthIdx]
  omega

/-- The while loop of getNextReminderDate (lines 176-178 of the source):
starting from start, add I months until the date is no longer strictly
before today.  The interval is packaged with the fact 1 ≤ I, which the
source guarantees at the single call site (safeIntervalOf below); the
loop terminates because each step advances the month index by I ≥ 1
while today is fixed. -/
def loopUntil (I : {n : Int // 1 ≤ n}) (today : CalDate) (start : CalDate) :
    CalDate :=
  if h : beforeD start today then
    loopUntil I today (addMonthsD start I.1)
  else start
termination_by (monthIdx today + 1 - monthIdx start).toNat
decreasing_by
  have h1 := monthIdx_le_of_beforeD start today h
  have h2 := monthIdx_addMonthsD start I.1
  have h3 := I.2
  omega

/-- The five REMINDER_CYCLES values; other stands for any further truthy
value an unrecognized configuration could carry. -/
inductive Cycle
  | once
  | monthly
  | halfYearly
  | yearly
  | custom
  | other
deriving DecidableEq

/-- JS "x || dflt" on an optional number: absence, NaN and 0 are falsy. -/
def jsOrNum (v : Option Int) (dflt : Int) : Int :=
  match v with
  | some n => if n = 0 then dflt else n
  | none => dflt

/-- getCycleIntervalMonths (source lines 125-138): lookup of the interval
in months; CUSTOM clamps Number(customMonths) || 0 into the range 1..60;
unrecognized cycles yield null (modelled none).  customMonths = none
models an unset or non-numeric value, whose Number conversion is NaN. -/
def getCycleIntervalMonths (cycle : Cycle) (customMonths : Option Int) :
    Option Int :=
  match cycle with
  | Cycle.monthly => some 1
  | Cycle.halfYearly => some 6
  | Cycle.yearly => some 12
  | Cycle.custom => some (min (max (jsOrNum customMonths 0) 1) 60)
  | _ => none

/-- The interval actually used by the loop (source line 173):
intervalMonths || 12, packaged with the fact that it is at least 1. -/
def safeIntervalOf (cycle : Cycle) (customMonths : Option Int) :
    {n : Int // 1 ≤ n} :=
  ⟨jsOrNum (getCycleIntervalMonths cycle customMonths) 12, by
    cases cycle <;>
      simp only [getCycleIntervalMonths, jsOrNum] <;>
      first
        | omega
        | (split <;> omega)⟩

/-- The reminderSettings value object.  Optional fields model JS fields
that may be absent or falsy; a timings entry of none models a
non-number array element; timeOfDay none models an absent or empty
string, and a parsed component of none models NaN from Number. -/
structure ReminderSettings where
  enabled : Bool
  cycle : Option Cycle
  customMonths : Option Int
  timings : Option (List (Option Int))
  timeOfDay : Option (Option Int × Option Int)

/-- The anniversary date field as getNextReminderDate sees it after
parseISO: missing (falsy), an Invalid Date (truthy, NaN time), or a
valid day-truncated date. -/
inductive DateInput
  | missing
  | invalid
  | valid (d : CalDate)

/-- The slice of an Anniversary record the scheduler reads. -/
structure Anniversary where
  date : DateInput
  reminderSettings : Option ReminderSettings

/-- The reference instant: a valid wall-clock value, carrying its
day-truncation and the hour and minute that format HH:mm extracts. -/
structure Instant where
  day : CalDate
  hour : Int
  minute : Int

/-- getNextReminderDate (source lines 140-185).  Result none is JS null;
some none is an Invalid Date (isBefore on it is always false, so both
the ONCE branch and the while loop return it unchanged); some (some d)
is a real date. -/
def getNextReminderDate (a : Anniversary) (now : Instant) :
    Option (Option CalDate) :=
  match a.reminderSettings with
  | none => none
  | some rs =>
    if rs.enabled = false then none
    else
      let cycle := rs.cycle.getD Cycle.yearly
      match a.date with
      | DateInput.missing => none
      | DateInput.invalid => some none
      | DateInput.valid target =>
        if cycle = Cycle.once then
          if beforeD target now.day then none else some (some target)
        else
          some (some (loopUntil (safeIntervalOf cycle rs.customMonths)
            now.day target))

/-- shouldNotify (source lines 187-226).  The time check compares the
hour for equality and the minute within 5; then the next reminder date
is computed and its whole-day distance from today must be a member of
the timings array (defaulted to a single 0).  An Invalid Date next
reminder is truthy but yields NaN daysUntil, which matches no timings
entry. -/
def shouldNotify (a : Anniversary) (now : Instant) : Bool :=
  match a.reminderSettings with
  | none => false
  | some rs =>
    if rs.enabled = false then false
    else
      let tod := rs.timeOfDay.getD (some 9, some 0)
      let timeMatches :=
        match tod with
        | (some th, some tm) =>
          decide (now.hour = th) && decide ((now.minute - tm).natAbs ≤ 5)
        | _ => false
      if timeMatches = false then false
      else
        match getNextReminderDate a now with
        | none => false
        | some none => false
        | some (some d) =>
          (rs.timings.getD [some 0]).contains
            (some (toDayNumber d - toDayNumber now.day))

/-- Convenience constructor for concrete valid dates. -/
def mkDate (y m d : Int)
    (h : 1 ≤ m ∧ m ≤ 12 ∧ 1 ≤ d ∧ d ≤ daysInMonth y m) : CalDate :=
  ⟨y, m, d, h.1, h.2.1, h.2.2.1, h.2.2.2⟩

/-! Concrete records and instants used by individual claims. -/

def rsC1 : ReminderSettings :=
  ⟨true, some Cycle.custom, none, some [some 0], some (some 9, some 0)⟩

def dC1 : CalDate := mkDate 2024 1 15 (by decide)

def recC1 : Anniversary := ⟨DateInput.valid dC1, some rsC1⟩

def nowC1 : Instant := ⟨mkDate 2024 1 20 (by decide), 9, 0⟩

def rsC2 : ReminderSettings :=
  ⟨true, some Cycle.once, none, some [some 0, some 1, some 7],
    some (some 9, some 0)⟩

def dC2 : CalDate := mkDate 2024 6 15 (by decide)

def recC2 : Anniversary := ⟨DateInput.valid dC2, some rsC2⟩

def nowC2a : Instant := ⟨mkDate 2024 6 15 (by decide), 9, 2⟩

def nowC2b : Instant := ⟨mkDate 2024 6 14 (by decide), 9, 2⟩

def nowC2c : Instant := ⟨mkDate 2024 6 15 (by decide), 9, 10⟩

def rsC3 : ReminderSettings :=
  ⟨true, some Cycle.yearly, none, some [some 0], some (some 9, some 0)⟩

def recC3 : Anniversary := ⟨DateInput.invalid, some rsC3⟩

def nowC3 : Instant := ⟨mkDate 2024 6 15 (by decide), 9, 0⟩

def rsC4 : ReminderSettings :=
  ⟨true, some Cycle.monthly, none, some [some 0], some (some 9, some 0)⟩

def dC4 : CalDate := mkDate 2024 1 15 (by decide)

def recC4 : Anniversary := ⟨DateInput.valid dC4, some rsC4⟩

def nowC4 : Instant := ⟨mkDate 2024 2 20 (by decide), 9, 0⟩

def rsC5 : ReminderSettings :=
  ⟨true, some Cycle.custom, some 3, some [some 0], some (some 9, some 0)⟩

def dC5 : CalDate := mkDate 2024 1 31 (by decide)

def recC5 : Anniversary := ⟨DateInput.valid dC5, some rsC5⟩

def nowC5 : Instant := ⟨mkDate 2024 5 1 (by decide), 9, 0⟩

def rsC6 : ReminderSettings :=
  ⟨true, some Cycle.once, none, some [some 0], some (some 9, some 0)⟩

def dC6 : CalDate := mkDate 2024 6 15 (by decide)

def recC6 : Anniversary := ⟨DateInput.valid dC6, some rsC6⟩

def nowC6 : Instant := ⟨mkDate 2024 6 10 (by decide), 9, 0⟩

def rsC7 : ReminderSettings :=
  ⟨true, some Cycle.yearly, none, some [some 0], some (some 9, some 0)⟩

def dC7w : CalDate := mkDate 2020 6 15 (by decide)

def recC7w : Anniversary := ⟨DateInput.valid dC7w, some rsC7⟩

def nowC7w : Instant := ⟨mkDate 2024 6 20 (by decide), 9, 0⟩

def dC7x : CalDate := mkDate 2024 2 29 (by decide)

def recC7x : Anniversary := ⟨DateInput.valid dC7x, some rsC7⟩

def nowC7x : Instant := ⟨mkDate 2025 3 5 (by decide), 9, 0⟩

def rsC8 : ReminderSettings :=
  ⟨false, some Cycle.yearly, none, some [some 0], some (some 9, some 0)⟩

def recC8 : Anniversary :=
  ⟨DateInput.valid (mkDate 2024 6 15 (by decide)), some rsC8⟩

def nowC8 : Instant := ⟨mkDate 2024 6 15 (by decide), 9, 0⟩

def rsC10 : ReminderSettings := ⟨true, some Cycle.once, none, none, none⟩

def dC10 : CalDate := mkDate 2024 6 15 (by decide)

def recC10 : Anniversary := ⟨DateInput.valid dC10, some rsC10⟩

def nowC10 : Instant := ⟨mkDate 2024 6 15 (by decide), 9, 0⟩

/-! Date-arithmetic lemmas: the civil day number is strictly monotone
with respect to lexicographic order on valid calendar dates, so the
boolean beforeD agrees with comparison of day numbers. -/

theorem civilDays_decomp (y m d : Int) :
    civilDays y m d
      = yearDays (if m ≤ 2 then y - 1 else y) + doyOf m d - 719468 := by
  simp only [civilDays, yearDays, doyOf]
  ring

theorem yearDays_succ (y : Int) :
    yearDays (y + 1)
      = yearDays y + (if isLeapYear (y + 1) then 366 else 365) := by
  simp only [yearDays, isLeapYear]
  split <;> omega

theorem yearDays_mono (y1 y2 : Int) (h : y1 ≤ y2) :
    yearDays y1 ≤ yearDays y2 := by
  have key : ∀ k : Nat, yearDays y1 ≤ yearDays (y1 + (k : Int)) := by
    intro k
    induction k with
    | zero => simp
    | succ k ih =>
      have hc : y1 + ((k + 1 : Nat) : Int) = (y1 + (k : Int)) + 1 := by
        push_cast
        ring
      rw [hc]
      have hs := yearDays_succ (y1 + (k : Int))
      split at hs <;> omega
  have hy : y2 = y1 + ((y2 - y1).toNat : Int) := by omega
  rw [hy]
  exact key _

theorem yearDays_gap (y1 y2 : Int) (h : y1 < y2) :
    yearDays y1 + 365 ≤ yearDays y2 := by
  have h1 := yearDays_succ y1
  have h2 := yearDays_mono (y1 + 1) y2 (by omega)
  split at h1 <;> omega

theorem doyOf_nonneg (m d : Int) (hd : 1 ≤ d) : 0 ≤ doyOf m d := by
  simp only [doyOf]
  omega

theorem daysInMonth_le_31 (y m : Int) : daysInMonth y m ≤ 31 := by
  unfold daysInMonth
  split
  · split <;> omega
  · split <;> omega

theorem daysInMonth_eq_of_ne_two (y m : Int) (hf : m ≠ 2) :
    daysInMonth y m = if m = 4 ∨ m = 6 ∨ m = 9 ∨ m = 11 then 30 else 31 := by
  simp only [daysInMonth, if_neg hf]

/-- Within one shifted (March-first) year the day-of-year stays below the
length of that shifted year, which ends with the February of calendar
year y + 1 when the shifted year is y. -/
theorem doyOf_lt_yearLen (y m d : Int)
    (hm : 1 ≤ m) (hm' : m ≤ 12) (hd : 1 ≤ d) (hd' : d ≤ daysInMonth y m) :
    doyOf m d
      < (if isLeapYear ((if m ≤ 2 then y - 1 else y) + 1) then 366 else 365) := by
  by_cases h2 : m ≤ 2
  · rw [if_pos h2, (by omega : y - 1 + 1 = y)]
    rcases (by omega : m = 1 ∨ m = 2) with rfl | rfl
    · norm_num [daysInMonth] at hd'
      simp only [doyOf]
      split <;> omega
    · norm_num [daysInMonth] at hd'
      simp only [doyOf, isLeapYear] at *
      split at hd' <;> split <;> omega
  · rw [if_neg h2]
    have h31 := daysInMonth_le_31 y m
    simp only [doyOf]
    rw [(by omega : (m + 9) % 12 = m - 3)]
    split <;> omega

/-- Strict growth of the day-of-year along the shifted-month order: a
month strictly earlier in the March-first order ends before a later
month starts, because each shifted month except the final February has
a fixed length equal to the gap between consecutive month starts. -/
theorem doyOf_lt (y1 m1 d1 m2 d2 : Int)
    (hm1 : 1 ≤ m1) (hm1' : m1 ≤ 12) (hd1' : d1 ≤ daysInMonth y1 m1)
    (hm2 : 1 ≤ m2) (hm2' : m2 ≤ 12) (hd2 : 1 ≤ d2)
    (h : (m1 + 9) % 12 < (m2 + 9) % 12 ∨ (m1 = m2 ∧ d1 < d2)) :
    doyOf m1 d1 < doyOf m2 d2 := by
  rcases h with h | ⟨rfl, h⟩
  · have hfeb : m1 ≠ 2 := by
      intro hm
      subst hm
      omega
    rw [daysInMonth_eq_of_ne_two y1 m1 hfeb] at hd1'
    simp only [doyOf]
    split at hd1' <;> interval_cases m1 <;> omega
  · simp only [doyOf]
    omega

theorem yearDays_core (ya yb p q : Int)
    (h : ya < yb ∨ (ya = yb ∧ p < q))
    (hq : 0 ≤ q)
    (hp : p < (if isLeapYear (ya + 1) then 366 else 365)) :
    yearDays ya + p < yearDays yb + q := by
  rcases h with h | ⟨rfl, h⟩
  · have hgap := yearDays_gap ya yb h
    have hmono := yearDays_mono (ya + 1) yb (by omega)
    have hsucc := yearDays_succ ya
    split at hp <;> split at hsucc <;> omega
  · omega

/-- Strict monotonicity of the civil day number with respect to
lexicographic (year, month, day) order on valid dates: the bridge
between isBefore (timestamp order) and differenceInDays. -/
theorem civilDays_lt_of_lex (y1 m1 d1 y2 m2 d2 : Int)
    (hm1 : 1 ≤ m1) (hm1' : m1 ≤ 12) (hd1 : 1 ≤ d1)
    (hd1' : d1 ≤ daysInMonth y1 m1)
    (hm2 : 1 ≤ m2) (hm2' : m2 ≤ 12) (hd2 : 1 ≤ d2)
    (hd2' : d2 ≤ daysInMonth y2 m2)
    (hlt : y1 < y2 ∨ (y1 = y2 ∧ (m1 < m2 ∨ (m1 = m2 ∧ d1 < d2)))) :
    civilDays y1 m1 d1 < civilDays y2 m2 d2 := by
  rw [civilDays_decomp, civilDays_decomp]
  have hcases :
      (if m1 ≤ 2 then y1 - 1 else y1) < (if m2 ≤ 2 then y2 - 1 else y2) ∨
      ((if m1 ≤ 2 then y1 - 1 else y1) = (if m2 ≤ 2 then y2 - 1 else y2) ∧
        ((m1 + 9) % 12 < (m2 + 9) % 12 ∨ (m1 = m2 ∧ d1 < d2))) := by
    split <;> split <;> omega
  have hlen := doyOf_lt_yearLen y1 m1 d1 hm1 hm1' hd1 hd1'
  have hnn := doyOf_nonneg m2 d2 hd2
  rcases hcases with hyy | ⟨hyy, hss⟩
  · have hcore := yearDays_core _ _ _ _ (Or.inl hyy) hnn hlen
    omega
  · have hlt2 := doyOf_lt y1 m1 d1 m2 d2 hm1 hm1' hd1' hm2 hm2' hd2 hss
    have hcore := yearDays_core _ _ _ _ (Or.inr ⟨hyy, hlt2⟩) hnn hlen
    omega

theorem toDayNumber_lt_of_beforeD (a b : CalDate) (h : beforeD a b = true) :
    toDayNumber a < toDayNumber b := by
  simp only [beforeD, decide_eq_true_eq, lexLt] at h
  exact civilDays_lt_of_lex _ _ _ _ _ _
    a.month_ge a.month_le a.day_ge a.day_le
    b.month_ge b.month_le b.day_ge b.day_le h

theorem toDayNumber_le_of_not_beforeD (a b : CalDate)
    (h : beforeD a b = false) : toDayNumber b ≤ toDayNumber a := by
  by_cases hb : beforeD b a = true
  · exact le_of_lt (toDayNumber_lt_of_beforeD b a hb)
  · have h1 : ¬ lexLt a.year a.month a.day b.year b.month b.day := by
      simpa [beforeD] using h
    have h2 : ¬ lexLt b.year b.month b.day a.year a.month a.day := by
      simpa [beforeD] using hb
    simp only [lexLt] at h1 h2
    have hy : b.year = a.year ∧ b.month = a.month ∧ b.day = a.day := by
      omega
    simp only [toDayNumber]
    rw [hy.1, hy.2.1, hy.2.2]

/-! Characterization of the month-addition loop: it returns the first
iterate of addMonthsD that is not strictly before today. -/

theorem loopUntil_unfold (I : {n : Int // 1 ≤ n}) (today start : CalDate) :
    loopUntil I today start
      = if beforeD start today then loopUntil I today (addMonthsD start I.1)
        else start := by
  rw [loopUntil]
  split <;> rename_i hc <;> simp [hc]

theorem loopUntil_spec (I : {n : Int // 1 ≤ n}) (today : CalDate) :
    ∀ (n : Nat) (start : CalDate),
      (monthIdx today + 1 - monthIdx start).toNat ≤ n →
      ∃ k : Nat,
        loopUntil I today start = iterAdd I.1 k start ∧
        (∀ j : Nat, j < k → beforeD (iterAdd I.1 j start) today = true) ∧
        beforeD (loopUntil I today start) today = false := by
  intro n
  induction n with
  | zero =>
    intro start hn
    have hbf : beforeD start today = false := by
      cases hbe : beforeD start today
      · rfl
      · exfalso
        have := monthIdx_le_of_beforeD start today hbe
        omega
    refine ⟨0, ?_, fun j hj => absurd hj (Nat.not_lt_zero j), ?_⟩
    · rw [loopUntil_unfold]
      simp [hbf, iterAdd]
    · rw [loopUntil_unfold]
      simp [hbf]
  | succ n ih =>
    intro start hn
    cases hbe : beforeD start today
    · refine ⟨0, ?_, fun j hj => absurd hj (Nat.not_lt_zero j), ?_⟩
      · rw [loopUntil_unfold]
        simp [hbe, iterAdd]
      · rw [loopUntil_unfold]
        simp [hbe]
    · have hmle := monthIdx_le_of_beforeD start today hbe
      have hmi := monthIdx_addMonthsD start I.1
      have hI := I.2
      obtain ⟨k, hk1, hk2, hk3⟩ := ih (addMonthsD start I.1) (by omega)
      have hstep : loopUntil I today start
          = loopUntil I today (addMonthsD start I.1) := by
        rw [loopUntil_unfold]
        simp [hbe]
      refine ⟨k + 1, ?_, ?_, ?_⟩
      · rw [hstep, hk1]
        rfl
      · intro j hj
        cases j with
        | zero => simpa [iterAdd] using hbe
        | succ j =>
          have := hk2 j (by omega)
          simpa [iterAdd] using this
      · rw [hstep]
        exact hk3

theorem loopUntil_exists (I : {n : Int // 1 ≤ n}) (today start : CalDate) :
    ∃ k : Nat,
      loopUntil I today start = iterAdd I.1 k start ∧
      (∀ j : Nat, j < k → beforeD (iterAdd I.1 j start) today = true) ∧
      beforeD (loopUntil I today start) today = false :=
  loopUntil_spec I today _ start le_rfl

theorem loopUntil_eq_of_first (I : {n : Int // 1 ≤ n}) (today start : CalDate)
    (k : Nat)
    (h1 : ∀ j : Nat, j < k → beforeD (iterAdd I.1 j start) today = true)
    (h2 : beforeD (iterAdd I.1 k start) today = false) :
    loopUntil I today start = iterAdd I.1 k start := by
  obtain ⟨k', e1, e2, e3⟩ := loopUntil_exists I today start
  have hkk : k' = k := by
    by_contra hne
    rcases Nat.lt_or_ge k' k with hlt | hge
    · have ht := h1 k' hlt
      have hf : beforeD (iterAdd I.1 k' start) today = false := e1 ▸ e3
      rw [ht] at hf
      exact Bool.noConfusion hf
    · have hk : k < k' := by omega
      have ht := e2 k hk
      rw [h2] at ht
      exact Bool.noConfusion ht
  rw [hkk] at e1
  exact e1

/-! Branchwise characterizations of getNextReminderDate and
shouldNotify, read off the control flow of the source. -/

theorem getNextReminderDate_no_settings (a : Anniversary) (now : Instant)
    (h : a.reminderSettings = none) : getNextReminderDate a now = none := by
  simp [getNextReminderDate, h]

theorem getNextReminderDate_disabled (a : Anniversary) (now : Instant)
    (rs : ReminderSettings) (h : a.reminderSettings = some rs)
    (he : rs.enabled = false) : getNextReminderDate a now = none := by
  simp [getNextReminderDate, h, he]

theorem getNextReminderDate_missing (a : Anniversary) (now : Instant)
    (h : a.date = DateInput.missing) : getNextReminderDate a now = none := by
  rcases hrs : a.reminderSettings with _ | rs
  · simp [getNextReminderDate, hrs]
  · cases he : rs.enabled
    · simp [getNextReminderDate, hrs, he]
    · simp [getNextReminderDate, hrs, he, h]

theorem getNextReminderDate_invalid (a : Anniversary) (now : Instant)
    (rs : ReminderSettings) (h1 : a.reminderSettings = some rs)
    (h2 : rs.enabled = true) (h3 : a.date = DateInput.invalid) :
    getNextReminderDate a now = some none := by
  simp [getNextReminderDate, h1, h2, h3]

theorem getNextReminderDate_once (a : Anniversary) (now : Instant)
    (rs : ReminderSettings) (target : CalDate)
    (h1 : a.reminderSettings = some rs) (h2 : rs.enabled = true)
    (h3 : rs.cycle = some Cycle.once) (h4 : a.date = DateInput.valid target) :
    getNextReminderDate a now
      = if beforeD target now.day then none else some (some target) := by
  simp [getNextReminderDate, h1, h2, h3, h4]

theorem getNextReminderDate_recurring (a : Anniversary) (now : Instant)
    (rs : ReminderSettings) (target : CalDate)
    (h1 : a.reminderSettings = some rs) (h2 : rs.enabled = true)
    (h3 : rs.cycle.getD Cycle.yearly ≠ Cycle.once)
    (h4 : a.date = DateInput.valid target) :
    getNextReminderDate a now
      = some (some (loopUntil
          (safeIntervalOf (rs.cycle.getD Cycle.yearly) rs.customMonths)
          now.day target)) := by
  simp [getNextReminderDate, h1, h2, h3, h4]

/-- The firing condition of shouldNotify, characterized for an enabled
record in terms of the effective (default-substituted) time-of-day and
timings. -/
theorem shouldNotify_iff (a : Anniversary) (now : Instant)
    (rs : ReminderSettings) (th tm : Int) (ts : List (Option Int))
    (h1 : a.reminderSettings = some rs) (h2 : rs.enabled = true)
    (h3 : rs.timeOfDay.getD (some 9, some 0) = (some th, some tm))
    (h4 : rs.timings.getD [some 0] = ts) :
    (shouldNotify a now = true ↔
      ((now.hour = th ∧ (now.minute - tm).natAbs ≤ 5) ∧
        ∃ d : CalDate, getNextReminderDate a now = some (some d) ∧
          some (toDayNumber d - toDayNumber now.day) ∈ ts)) := by
  rcases hg : getNextReminderDate a now with _ | od
  · simp [shouldNotify, h1, h2, h3, h4, hg]
  · rcases od with _ | d
    · simp [shouldNotify, h1, h2, h3, h4, hg]
    · simp [shouldNotify, h1, h2, h3, h4, hg, and_assoc]

/-- The record rs with its timings field replaced. -/
def withTimings (rs : ReminderSettings) (ts' : Option (List (Option Int))) :
    ReminderSettings :=
  { rs with timings := ts' }

/-- The record a with its reminderSettings field replaced. -/
def withSettings (a : Anniversary) (rs : ReminderSettings) : Anniversary :=
  { a with reminderSettings := some rs }

/-! Auxiliary lemmas about degraded inputs. -/

theorem shouldNotify_false_of_no_date (a : Anniversary) (now : Instant)
    (h : getNextReminderDate a now = none ∨
      getNextReminderDate a now = some none) :
    shouldNotify a now = false := by
  rcases hrs : a.reminderSettings with _ | rs
  · simp [shouldNotify, hrs]
  · cases he : rs.enabled
    · simp [shouldNotify, hrs, he]
    · rcases h with h | h <;> simp [shouldNotify, hrs, he, h]

theorem getNextReminderDate_timings_irrelevant (a : Anniversary)
    (now : Instant) (rs : ReminderSettings) (ts' : Option (List (Option Int)))
    (h : a.reminderSettings = some rs) :
    getNextReminderDate (withSettings a (withTimings rs ts')) now
      = getNextReminderDate a now := by
  simp only [getNextReminderDate, withSettings, withTimings, h]

theorem contains_filter_isSome (ts : List (Option Int)) (dv : Int) :
    (ts.filter fun t => t.isSome).contains (some dv)
      = ts.contains (some dv) := by
  induction ts with
  | nil => rfl
  | cons t ts ih =>
    rcases t with _ | x
    · simpa [List.filter_cons] using ih
    · simp [List.filter_cons, ih]

theorem shouldNotify_filter_nonnumeric (a : Anniversary) (now : Instant)
    (rs : ReminderSettings) (ts : List (Option Int))
    (h1 : a.reminderSettings = some rs) (h4 : rs.timings = some ts) :
    shouldNotify a now
      = shouldNotify
          (withSettings a
            (withTimings rs (some (ts.filter fun t => t.isSome)))) now := by
  have hg := getNextReminderDate_timings_irrelevant a now rs
    (some (ts.filter fun t => t.isSome)) h1
  simp only [withSettings, withTimings] at hg
  simp only [shouldNotify, withSettings, withTimings, h1, hg, h4,
    Option.getD_some]
  cases he : rs.enabled
  · simp
  · simp only [Bool.true_eq_false, if_false]
    rcases htod : rs.timeOfDay.getD (some 9, some 0) with ⟨oh, om⟩
    rcases oh with _ | th
    · simp
    · rcases om with _ | tm
      · simp
      · by_cases htm : (decide (now.hour = th) &&
            decide ((now.minute - tm).natAbs ≤ 5)) = false
        · simp [htm]
        · simp only [htm, if_false]
          rcases hgd : getNextReminderDate a now with _ | od
          · rfl
          · rcases od with _ | d
            · rfl
            · exact (contains_filter_isSome ts
                (toDayNumber d - toDayNumber now.day)).symm

/-! Claim theorems. -/

/-- C2: for an enabled record with configured timeOfDay and timings,
shouldNotify is true exactly when the hour matches, the minute is
within 5 of the target, the next reminder date exists as a real date,
and its whole-day distance from today is a member of the timings; on
the concrete example record (timeOfDay 09:00, timings containing 0, 1
and 7), 09:02 on the due date and 09:02 one day before both notify,
and 09:10 on the due date does not. -/
theorem C2_notify_characterization (a : Anniversary) (now : Instant)
    (rs : ReminderSettings) (th tm : Int) (ts : List (Option Int))
    (h1 : a.reminderSettings = some rs) (h2 : rs.enabled = true)
    (h3 : rs.timeOfDay = some (some th, some tm)) (h4 : rs.timings = some ts) :
    (shouldNotify a now = true ↔
      ((now.hour = th ∧ (now.minute - tm).natAbs ≤ 5) ∧
        ∃ d : CalDate, getNextReminderDate a now = some (some d) ∧
          some (toDayNumber d - toDayNumber now.day) ∈ ts)) ∧
    shouldNotify recC2 nowC2a = true ∧
    shouldNotify recC2 nowC2b = true ∧
    shouldNotify recC2 nowC2c = false :=
  ⟨shouldNotify_iff a now rs th tm ts h1 h2 (by rw [h3]; rfl)
      (by rw [h4]; rfl),
    by decide, by decide, by decide⟩

/-- C2 witness at the concrete example record. -/
theorem C2_notify_characterization_witness :
    (recC2.reminderSettings = some rsC2 ∧ rsC2.enabled = true ∧
      rsC2.timeOfDay = some (some 9, some 0) ∧
      rsC2.timings = some [some 0, some 1, some 7]) ∧
    ((shouldNotify recC2 nowC2a = true ↔
      ((nowC2a.hour = 9 ∧ (nowC2a.minute - 0).natAbs ≤ 5) ∧
        ∃ d : CalDate, getNextReminderDate recC2 nowC2a = some (some d) ∧
          some (toDayNumber d - toDayNumber nowC2a.day)
            ∈ [some 0, some 1, some 7])) ∧
      shouldNotify recC2 nowC2a = true ∧
      shouldNotify recC2 nowC2b = true ∧
      shouldNotify recC2 nowC2c = false) :=
  ⟨⟨rfl, rfl, rfl, rfl⟩,
    C2_notify_characterization recC2 nowC2a rsC2 9 0 [some 0, some 1, some 7]
      rfl rfl rfl rfl⟩

/-- C3 (amended): both queries are total and never raise; a missing
date yields no next date and no notification; an unparseable date makes
getNextReminderDate return the parsed Invalid Date value rather than
null, and shouldNotify still returns false on it; and non-numeric
timings entries never influence the outcome, since a notification can
only match a numeric entry. -/
theorem C3_total_and_degrading :
    (∀ (a : Anniversary) (now : Instant), a.date = DateInput.missing →
      getNextReminderDate a now = none ∧ shouldNotify a now = false) ∧
    (∀ (a : Anniversary) (now : Instant) (rs : ReminderSettings),
      a.reminderSettings = some rs → rs.enabled = true →
      a.date = DateInput.invalid →
      getNextReminderDate a now = some none ∧ shouldNotify a now = false) ∧
    (∀ (a : Anniversary) (now : Instant) (rs : ReminderSettings)
      (ts : List (Option Int)),
      a.reminderSettings = some rs → rs.timings = some ts →
      shouldNotify a now = shouldNotify
        (withSettings a
          (withTimings rs (some (ts.filter fun t => t.isSome)))) now) := by
  refine ⟨?_, ?_, ?_⟩
  · intro a now h
    have hg := getNextReminderDate_missing a now h
    exact ⟨hg, shouldNotify_false_of_no_date a now (Or.inl hg)⟩
  · intro a now rs h1 h2 h3
    have hg := getNextReminderDate_invalid a now rs h1 h2 h3
    exact ⟨hg, shouldNotify_false_of_no_date a now (Or.inr hg)⟩
  · intro a now rs ts h1 h4
    exact shouldNotify_filter_nonnumeric a now rs ts h1 h4

/-- C3 witness at a concrete enabled record with an unparseable date. -/
theorem C3_total_and_degrading_witness :
    (recC3.reminderSettings = some rsC3 ∧ rsC3.enabled = true ∧
      recC3.date = DateInput.invalid) ∧
    (getNextReminderDate recC3 nowC3 = some none ∧
      shouldNotify recC3 nowC3 = false) :=
  ⟨⟨rfl, rfl, rfl⟩,
    C3_total_and_degrading.2.1 recC3 nowC3 rsC3 rfl rfl rfl⟩

/-- C3 counterexample: on an enabled record whose date string is
unparseable, getNextReminderDate returns the Invalid Date value
(some none), which is not the null (none) the claim promises, while
shouldNotify still returns false. -/
theorem C3_counterexample :
    getNextReminderDate recC3 nowC3 = some none ∧
    (some (none : Option CalDate) : Option (Option CalDate)) ≠ none ∧
    shouldNotify recC3 nowC3 = false :=
  ⟨getNextReminderDate_invalid recC3 nowC3 rsC3 rfl rfl rfl,
    Option.some_ne_none _, by decide⟩

/-- C10: for an enabled record with absent timeOfDay and absent
timings, the defaults 09:00 and a single 0 offset are substituted, so
the record still notifies exactly when the time is within the 09:00
window and the next due date is the current day. -/
theorem C10_missing_fields_default (a : Anniversary) (now : Instant)
    (rs : ReminderSettings)
    (h1 : a.reminderSettings = some rs) (h2 : rs.enabled = true)
    (h3 : rs.timeOfDay = none) (h4 : rs.timings = none) :
    rs.timeOfDay.getD (some 9, some 0) = (some 9, some 0) ∧
    rs.timings.getD [some 0] = [some 0] ∧
    (shouldNotify a now = true ↔
      ((now.hour = 9 ∧ (now.minute - 0).natAbs ≤ 5) ∧
        ∃ d : CalDate, getNextReminderDate a now = some (some d) ∧
          toDayNumber d - toDayNumber now.day = 0)) := by
  have hiff := shouldNotify_iff a now rs 9 0 [some 0] h1 h2
    (by rw [h3]; rfl) (by rw [h4]; rfl)
  refine ⟨by rw [h3]; rfl, by rw [h4]; rfl, ?_⟩
  rw [hiff]
  constructor
  · rintro ⟨hT, d, hd, hmem⟩
    refine ⟨hT, d, hd, ?_⟩
    simpa using hmem
  · rintro ⟨hT, d, hd, hz⟩
    exact ⟨hT, d, hd, by simp [hz]⟩

/-- C10 witness: a concrete enabled record with no timeOfDay and no
timings fires at 09:00 on its due date. -/
theorem C10_missing_fields_default_witness :
    (recC10.reminderSettings = some rsC10 ∧ rsC10.enabled = true ∧
      rsC10.timeOfDay = none ∧ rsC10.timings = none) ∧
    shouldNotify recC10 nowC10 = true := by
  refine ⟨⟨rfl, rfl, rfl, rfl⟩, ?_⟩
  have h := (C10_missing_fields_default recC10 nowC10 rsC10
    rfl rfl rfl rfl).2.2
  rw [h]
  refine ⟨⟨by decide, by decide⟩, dC10, ?_, by decide⟩
  rw [getNextReminderDate_once recC10 nowC10 rsC10 dC10 rfl rfl rfl rfl]
  rw [show beforeD dC10 nowC10.day = false from by decide]
  simp

/-- C1 (amended): the effective interval lookup gives MONTHLY 1,
HALF_YEARLY 6, YEARLY 12; CUSTOM clamps customMonths into the range
1..60 (0 becomes 1, 61 becomes 60), and an unset or non-numeric
customMonths becomes 1, not 12; the 12-month fallback applies exactly
when the lookup yields no interval, namely for cycle values outside the
four recurring ones. -/
theorem C1_interval_lookup (cm : Int) :
    getCycleIntervalMonths Cycle.monthly (some cm) = some 1 ∧
    getCycleIntervalMonths Cycle.halfYearly (some cm) = some 6 ∧
    getCycleIntervalMonths Cycle.yearly (some cm) = some 12 ∧
    getCycleIntervalMonths Cycle.custom (some cm) = some (min (max cm 1) 60) ∧
    getCycleIntervalMonths Cycle.custom (some 0) = some 1 ∧
    getCycleIntervalMonths Cycle.custom (some 61) = some 60 ∧
    getCycleIntervalMonths Cycle.custom none = some 1 ∧
    getCycleIntervalMonths Cycle.once (some cm) = none ∧
    getCycleIntervalMonths Cycle.other (some cm) = none ∧
    (safeIntervalOf Cycle.other (some cm)).1 = 12 ∧
    (safeIntervalOf Cycle.custom none).1 = 1 := by
  refine ⟨rfl, rfl, rfl, ?_, by decide, by decide, by decide, rfl, rfl,
    rfl, by decide⟩
  by_cases h : cm = 0
  · subst h
    decide
  · simp [getCycleIntervalMonths, jsOrNum, h]

/-- C1 counterexample: with cycle CUSTOM and customMonths unset, the
lookup yields 1 month, not the 12 the claim asserts, and
getNextReminderDate accordingly steps from Jan 15 to Feb 15 rather than
to the following January. -/
theorem C1_counterexample :
    getCycleIntervalMonths Cycle.custom none = some 1 ∧
    (1 : Int) ≠ 12 ∧
    (∃ d : CalDate, getNextReminderDate recC1 nowC1 = some (some d) ∧
      d.year = 2024 ∧ d.month = 2 ∧ d.day = 15) := by
  refine ⟨by decide, by decide, ?_⟩
  have hrec := getNextReminderDate_recurring recC1 nowC1 rsC1 dC1
    rfl rfl (by decide) rfl
  have hloop := loopUntil_eq_of_first
    (safeIntervalOf (rsC1.cycle.getD Cycle.yearly) rsC1.customMonths)
    nowC1.day dC1 1
    (by
      intro j hj
      interval_cases j
      decide)
    (by decide)
  rw [hloop] at hrec
  exact ⟨_, hrec, by decide, by decide, by decide⟩

/-- C4: for an enabled record with a recurring cycle and a valid origin
date, getNextReminderDate returns the first iterate of I-month addition
from the origin that is not strictly before the current day; that date
is at or after the current day, so the day difference computed inside
shouldNotify is nonnegative. -/
theorem C4_next_due_first_iterate (a : Anniversary) (now : Instant)
    (rs : ReminderSettings) (target : CalDate)
    (h1 : a.reminderSettings = some rs) (h2 : rs.enabled = true)
    (h3 : rs.cycle.getD Cycle.yearly ≠ Cycle.once)
    (h4 : a.date = DateInput.valid target) :
    ∃ (k : Nat) (d : CalDate),
      getNextReminderDate a now = some (some d) ∧
      d = iterAdd
        (safeIntervalOf (rs.cycle.getD Cycle.yearly) rs.customMonths).1
        k target ∧
      (∀ j : Nat, j < k →
        beforeD (iterAdd
          (safeIntervalOf (rs.cycle.getD Cycle.yearly) rs.customMonths).1
          j target) now.day = true) ∧
      beforeD d now.day = false ∧
      0 ≤ toDayNumber d - toDayNumber now.day := by
  have hrec := getNextReminderDate_recurring a now rs target h1 h2 h3 h4
  obtain ⟨k, e1, e2, e3⟩ := loopUntil_exists
    (safeIntervalOf (rs.cycle.getD Cycle.yearly) rs.customMonths)
    now.day target
  refine ⟨k, _, hrec, e1, e2, e3, ?_⟩
  have := toDayNumber_le_of_not_beforeD _ _ e3
  omega

/-- C4 witness at a concrete enabled monthly record. -/
theorem C4_next_due_first_iterate_witness :
    (recC4.reminderSettings = some rsC4 ∧ rsC4.enabled = true ∧
      rsC4.cycle.getD Cycle.yearly ≠ Cycle.once ∧
      recC4.date = DateInput.valid dC4) ∧
    (∃ (k : Nat) (d : CalDate),
      getNextReminderDate recC4 nowC4 = some (some d) ∧
      d = iterAdd
        (safeIntervalOf (rsC4.cycle.getD Cycle.yearly) rsC4.customMonths).1
        k dC4 ∧
      (∀ j : Nat, j < k →
        beforeD (iterAdd
          (safeIntervalOf (rsC4.cycle.getD Cycle.yearly) rsC4.customMonths).1
          j dC4) nowC4.day = true) ∧
      beforeD d nowC4.day = false ∧
      0 ≤ toDayNumber d - toDayNumber nowC4.day) :=
  ⟨⟨rfl, rfl, by decide, rfl⟩,
    C4_next_due_first_iterate recC4 nowC4 rsC4 dC4 rfl rfl (by decide) rfl⟩

/-- C5: each loop step advances the month index by the interval, hence
by at least one month; the loop is total and its value is an iterate
that is not strictly before the current day; and on the concrete
claim example (custom 3 months from 2024-01-31, evaluated 2024-05-01)
it produces 2024-07-30, the clamped third iterate. -/
theorem C5_loop_advances_and_terminates :
    (∀ (I : {n : Int // 1 ≤ n}) (d : CalDate),
      monthIdx (addMonthsD d I.1) = monthIdx d + I.1 ∧
      monthIdx d + 1 ≤ monthIdx (addMonthsD d I.1)) ∧
    (∀ (I : {n : Int // 1 ≤ n}) (today start : CalDate),
      ∃ k : Nat, loopUntil I today start = iterAdd I.1 k start ∧
        beforeD (loopUntil I today start) today = false) ∧
    (∃ d : CalDate, getNextReminderDate recC5 nowC5 = some (some d) ∧
      d.year = 2024 ∧ d.month = 7 ∧ d.day = 30) := by
  refine ⟨?_, ?_, ?_⟩
  · intro I d
    have h1 := monthIdx_addMonthsD d I.1
    have h2 := I.2
    omega
  · intro I today start
    obtain ⟨k, e1, _, e3⟩ := loopUntil_exists I today start
    exact ⟨k, e1, e3⟩
  · have hrec := getNextReminderDate_recurring recC5 nowC5 rsC5 dC5
      rfl rfl (by decide) rfl
    have hloop := loopUntil_eq_of_first
      (safeIntervalOf (rsC5.cycle.getD Cycle.yearly) rsC5.customMonths)
      nowC5.day dC5 2
      (by
        intro j hj
        interval_cases j <;> decide)
      (by decide)
    rw [hloop] at hrec
    exact ⟨_, hrec, by decide, by decide, by decide⟩

/-- C6: for an enabled record with cycle ONCE and a valid origin date,
getNextReminderDate returns the day-truncated origin when it is not
strictly before the current day, and null once the current day is
strictly past it. -/
theorem C6_once_semantics (a : Anniversary) (now : Instant)
    (rs : ReminderSettings) (target : CalDate)
    (h1 : a.reminderSettings = some rs) (h2 : rs.enabled = true)
    (h3 : rs.cycle = some Cycle.once) (h4 : a.date = DateInput.valid target) :
    (beforeD target now.day = false →
      getNextReminderDate a now = some (some target)) ∧
    (beforeD target now.day = true → getNextReminderDate a now = none) := by
  constructor <;> intro hb <;>
    rw [getNextReminderDate_once a now rs target h1 h2 h3 h4, hb] <;> simp

/-- C6 witness at a concrete one-time record five days before its date. -/
theorem C6_once_semantics_witness :
    (recC6.reminderSettings = some rsC6 ∧ rsC6.enabled = true ∧
      rsC6.cycle = some Cycle.once ∧ recC6.date = DateInput.valid dC6 ∧
      beforeD dC6 nowC6.day = false) ∧
    getNextReminderDate recC6 nowC6 = some (some dC6) :=
  ⟨⟨rfl, rfl, rfl, rfl, by decide⟩,
    (C6_once_semantics recC6 nowC6 rsC6 dC6 rfl rfl rfl rfl).1 (by decide)⟩

theorem daysInMonth_feb_le (y : Int) : daysInMonth y 2 ≤ 29 := by
  norm_num [daysInMonth]
  split <;> omega

theorem daysInMonth_feb_ge (y : Int) : 28 ≤ daysInMonth y 2 := by
  norm_num [daysInMonth]
  split <;> omega

/-- Adding 12 months to a valid date that is not February 29 lands on
the same month and day in the following year. -/
theorem addMonthsD_twelve (d : CalDate) (hf : ¬(d.month = 2 ∧ d.day = 29)) :
    (addMonthsD d 12).year = d.year + 1 ∧
    (addMonthsD d 12).month = d.month ∧
    (addMonthsD d 12).day = d.day := by
  have hm1 := d.month_ge
  have hm2 := d.month_le
  have hd1 := d.day_ge
  have hd2 := d.day_le
  have hy : (monthIdx d + 12) / 12 = d.year + 1 := by
    simp only [monthIdx]
    omega
  have hm : (monthIdx d + 12) % 12 + 1 = d.month := by
    simp only [monthIdx]
    omega
  refine ⟨?_, ?_, ?_⟩
  · show (monthIdx d + 12) / 12 = d.year + 1
    exact hy
  · show (monthIdx d + 12) % 12 + 1 = d.month
    exact hm
  show min d.day
    (daysInMonth ((monthIdx d + 12) / 12) ((monthIdx d + 12) % 12 + 1))
      = d.day
  rw [hy, hm]
  by_cases h2 : d.month = 2
  · have h29 : daysInMonth d.year 2 ≤ 29 := daysInMonth_feb_le d.year
    have h28 : 28 ≤ daysInMonth (d.year + 1) 2 := daysInMonth_feb_ge (d.year + 1)
    have hne : d.day ≠ 29 := fun hh => hf ⟨h2, hh⟩
    rw [h2] at hd2 ⊢
    exact min_eq_left (by omega)
  · rw [daysInMonth_eq_of_ne_two (d.year + 1) d.month h2]
    rw [daysInMonth_eq_of_ne_two d.year d.month h2] at hd2
    exact min_eq_left hd2

/-- Iterating 12-month addition from a non-leap-day origin adds k to the
year and preserves month and day. -/
theorem iterAdd_twelve_fields :
    ∀ (k : Nat) (d : CalDate), ¬(d.month = 2 ∧ d.day = 29) →
      (iterAdd 12 k d).year = d.year + k ∧
      (iterAdd 12 k d).month = d.month ∧
      (iterAdd 12 k d).day = d.day := by
  intro k
  induction k with
  | zero =>
    intro d hf
    simp [iterAdd]
  | succ k ih =>
    intro d hf
    obtain ⟨e1, e2, e3⟩ := addMonthsD_twelve d hf
    have hf' : ¬((addMonthsD d 12).month = 2 ∧ (addMonthsD d 12).day = 29) := by
      rw [e2, e3]
      exact hf
    obtain ⟨f1, f2, f3⟩ := ih (addMonthsD d 12) hf'
    have hstep : iterAdd 12 (k + 1) d = iterAdd 12 k (addMonthsD d 12) := rfl
    rw [hstep, f1, f2, f3, e1, e2, e3]
    refine ⟨by push_cast; ring, rfl, rfl⟩

/-- C7 (amended): for an enabled YEARLY record whose origin month-day is
not February 29, evaluating just after the current-year occurrence
(strictly after this year's month-day, at or before next year's)
returns next year's occurrence with month and day preserved and year
incremented; a February 29 origin is instead clamped to February 28 in
non-leap target years. -/
theorem C7_yearly_next_occurrence (a : Anniversary) (now : Instant)
    (rs : ReminderSettings) (target : CalDate) (ny : Int)
    (h1 : a.reminderSettings = some rs) (h2 : rs.enabled = true)
    (h3 : rs.cycle = some Cycle.yearly) (h4 : a.date = DateInput.valid target)
    (hf : ¬(target.month = 2 ∧ target.day = 29))
    (hny : target.year ≤ ny)
    (hafter : lexLt ny target.month target.day
      now.day.year now.day.month now.day.day)
    (hbefore : ¬ lexLt (ny + 1) target.month target.day
      now.day.year now.day.month now.day.day) :
    ∃ d : CalDate, getNextReminderDate a now = some (some d) ∧
      d.year = ny + 1 ∧ d.month = target.month ∧ d.day = target.day := by
  have h3' : rs.cycle.getD Cycle.yearly ≠ Cycle.once := by
    rw [h3]
    decide
  have hI : (safeIntervalOf (rs.cycle.getD Cycle.yearly) rs.customMonths).1
      = 12 := by
    rw [h3]
    rfl
  have hrec := getNextReminderDate_recurring a now rs target h1 h2 h3' h4
  have hk : ((ny + 1 - target.year).toNat : Int) = ny + 1 - target.year := by
    omega
  have hfirst : ∀ j : Nat, j < (ny + 1 - target.year).toNat →
      beforeD (iterAdd
        (safeIntervalOf (rs.cycle.getD Cycle.yearly) rs.customMonths).1
        j target) now.day = true := by
    intro j hj
    rw [hI]
    obtain ⟨e1, e2, e3⟩ := iterAdd_twelve_fields j target hf
    simp only [beforeD, e1, e2, e3, decide_eq_true_eq]
    simp only [lexLt] at hafter ⊢
    omega
  have hlast : beforeD (iterAdd
      (safeIntervalOf (rs.cycle.getD Cycle.yearly) rs.customMonths).1
      (ny + 1 - target.year).toNat target) now.day = false := by
    rw [hI]
    obtain ⟨e1, e2, e3⟩ := iterAdd_twelve_fields
      (ny + 1 - target.year).toNat target hf
    simp only [beforeD, e1, e2, e3, decide_eq_false_iff_not]
    simp only [lexLt] at hbefore ⊢
    omega
  have hloop := loopUntil_eq_of_first
    (safeIntervalOf (rs.cycle.getD Cycle.yearly) rs.customMonths)
    now.day target (ny + 1 - target.year).toNat
    (by
      intro j hj
      have := hfirst j hj
      rw [hI] at this ⊢
      exact this)
    (by
      have := hlast
      rw [hI] at this ⊢
      exact this)
  rw [hloop] at hrec
  rw [hI] at hrec
  obtain ⟨e1, e2, e3⟩ := iterAdd_twelve_fields
    (ny + 1 - target.year).toNat target hf
  refine ⟨_, hrec, ?_, e2, e3⟩
  rw [e1]
  omega

/-- C7 witness: a yearly record from 2020-06-15 evaluated on 2024-06-20
returns 2025-06-15. -/
theorem C7_yearly_next_occurrence_witness :
    (recC7w.reminderSettings = some rsC7 ∧ rsC7.enabled = true ∧
      rsC7.cycle = some Cycle.yearly ∧ recC7w.date = DateInput.valid dC7w ∧
      ¬(dC7w.month = 2 ∧ dC7w.day = 29) ∧ dC7w.year ≤ 2024 ∧
      lexLt 2024 dC7w.month dC7w.day
        nowC7w.day.year nowC7w.day.month nowC7w.day.day ∧
      ¬ lexLt (2024 + 1) dC7w.month dC7w.day
        nowC7w.day.year nowC7w.day.month nowC7w.day.day) ∧
    (∃ d : CalDate, getNextReminderDate recC7w nowC7w = some (some d) ∧
      d.year = 2024 + 1 ∧ d.month = dC7w.month ∧ d.day = dC7w.day) :=
  ⟨⟨rfl, rfl, rfl, rfl, by decide, by decide, by decide, by decide⟩,
    C7_yearly_next_occurrence recC7w nowC7w rsC7 dC7w 2024
      rfl rfl rfl rfl (by decide) (by decide) (by decide) (by decide)⟩

/-- C7 counterexample: a yearly record with leap-day origin 2024-02-29,
evaluated on 2025-03-05 (just after the current-year occurrence
2025-02-28), returns 2026-02-28: the day of the origin date is clamped
to 28, not preserved as the claim states. -/
theorem C7_counterexample :
    recC7x.date = DateInput.valid dC7x ∧ dC7x.month = 2 ∧ dC7x.day = 29 ∧
    (∃ d : CalDate, getNextReminderDate recC7x nowC7x = some (some d) ∧
      d.year = 2026 ∧ d.month = 2 ∧ d.day = 28 ∧ d.day ≠ dC7x.day) := by
  refine ⟨rfl, by decide, by decide, ?_⟩
  have hrec := getNextReminderDate_recurring recC7x nowC7x rsC7 dC7x
    rfl rfl (by decide) rfl
  have hloop := loopUntil_eq_of_first
    (safeIntervalOf (rsC7.cycle.getD Cycle.yearly) rsC7.customMonths)
    nowC7x.day dC7x 2
    (by
      intro j hj
      interval_cases j <;> decide)
    (by decide)
  rw [hloop] at hrec
  exact ⟨_, hrec, by decide, by decide, by decide, by decide⟩

/-- C8: a record with absent reminderSettings or enabled = false yields
no next reminder date and never notifies, regardless of all other
fields. -/
theorem C8_disabled_never_schedules (a : Anniversary) (now : Instant)
    (h : a.reminderSettings = none ∨
      ∃ rs : ReminderSettings,
        a.reminderSettings = some rs ∧ rs.enabled = false) :
    getNextReminderDate a now = none ∧ shouldNotify a now = false := by
  rcases h with h | ⟨rs, h, he⟩
  · exact ⟨getNextReminderDate_no_settings a now h, by simp [shouldNotify, h]⟩
  · exact ⟨getNextReminderDate_disabled a now rs h he,
      by simp [shouldNotify, h, he]⟩

/-- C8 witness at a concrete disabled record. -/
theorem C8_disabled_never_schedules_witness :
    (recC8.reminderSettings = some rsC8 ∧ rsC8.enabled = false) ∧
    getNextReminderDate recC8 nowC8 = none ∧
    shouldNotify recC8 nowC8 = false :=
  ⟨⟨rfl, rfl⟩,
    C8_disabled_never_schedules recC8 nowC8 (Or.inr ⟨rsC8, rfl, rfl⟩)⟩

/-- C9: both queries are pure functions of their two arguments; two
calls with identical arguments yield identical results, and equal
arguments give equal results. -/
theorem C9_deterministic (a b : Anniversary) (n m : Instant) :
    (getNextReminderDate a n = getNextReminderDate a n ∧
      shouldNotify a n = shouldNotify a n) ∧
    (a = b → n = m →
      getNextReminderDate a n = getNextReminderDate b m ∧
        shouldNotify a n = shouldNotify b m) := by
  refine ⟨⟨rfl, rfl⟩, ?_⟩
  intro hab hnm
  subst hab
  subst hnm
  exact ⟨rfl, rfl⟩

/-- C9 witness: the determinism statement applied at a concrete record
and instant, with the equal-arguments hypotheses discharged by rfl. -/
theorem C9_deterministic_witness :
    recC8 = recC8 ∧ nowC8 = nowC8 ∧
    (getNextReminderDate recC8 nowC8 = getNextReminderDate recC8 nowC8 ∧
      shouldNotify recC8 nowC8 = shouldNotify recC8 nowC8) :=
  ⟨rfl, rfl, (C9_deterministic recC8 recC8 nowC8 nowC8).2 rfl rfl⟩

end AnniDay
